import Mathlib

/-!
Verification of the transactional batch-consumption engine in
`fluvii/consumer.py` (classes `Consumer` and `TransactionalConsumer`).

The Python classes are shallowly embedded as pure Lean functions over an
explicit state record:

* Python dicts become association lists (`dictGet` / `dictSet`) mirroring
  dict lookup and insert-or-overwrite semantics.
* Wall-clock reads (`datetime.datetime.now().timestamp()`) become an
  explicit `now : Nat` argument supplied per call.
* The broker poll and the current partition assignment are external inputs,
  passed as arguments (`PollResult`, raw assignment list).
* Python exceptions become an `Except` outcome, returned together with the
  post-call state (exceptions do not roll back mutations, so the state at
  the moment of the raise is part of the result).
* Interactions with the external transactional producer are recorded as an
  action trace (`ProducerAction`).
-/

namespace Fluvii

/-- Truthiness of an optional number, as Python evaluates
`if self._consume_max_time_secs:` and similar guards: `None` and `0` are
falsy, every other number is truthy. -/
def natOptTruthy : Option Nat → Bool
  | none => false
  | some n => decide (n ≠ 0)

/-- Python `str(...)` applied to `self.message.error()`: the error string
itself when present, the text None when the message carries no error. -/
def pyStr : Option String → String
  | none => "None"
  | some s => s

/-- Does the character list `pat` occur at the head of `text`. -/
def startsWithChars : List Char → List Char → Bool
  | [], _ => true
  | _ :: _, [] => false
  | a :: as, b :: bs => a == b && startsWithChars as bs

/-- Does the character list `pat` occur anywhere inside `text`; helper for
the Python substring test `sub in s`. -/
def containsChars (pat : List Char) : List Char → Bool
  | [] => startsWithChars pat []
  | c :: cs => startsWithChars pat (c :: cs) || containsChars pat cs

/-- Python substring containment `sub in s`. -/
def strContains (s sub : String) : Bool := containsChars sub.data s.data

/-- Lookup in a Python dict modelled as an association list. -/
def dictGet {κ α : Type} [DecidableEq κ] (k : κ) : List (κ × α) → Option α
  | [] => none
  | (k0, v0) :: rest => if k0 = k then some v0 else dictGet k rest

/-- Insert-or-overwrite in a Python dict modelled as an association list;
keeps the position of an existing key, appends a fresh key at the end,
matching dict update semantics. -/
def dictSet {κ α : Type} [DecidableEq κ] (k : κ) (v : α) : List (κ × α) → List (κ × α)
  | [] => [(k, v)]
  | (k0, v0) :: rest => if k0 = k then (k, v) :: rest else (k0, v0) :: dictSet k v rest

/-- Inner dict of `_batch_offset_starts` / `_batch_offset_ends`:
partition number to offset. -/
abbrev PartMap := List (Nat × Nat)

/-- Outer dict of `_batch_offset_starts` / `_batch_offset_ends`:
topic name to inner partition dict. -/
abbrev TopicMap := List (String × PartMap)

/-- Nested lookup `d[topic][partition]`, none when either key is absent. -/
def lookup2 (m : TopicMap) (t : String) (p : Nat) : Option Nat :=
  match dictGet t m with
  | none => none
  | some pm => dictGet p pm

/-- Well-formedness of a nested offset dict as the Python code builds it:
no duplicate topic keys, and no duplicate partition keys inside a topic. -/
def TopicMapWF (m : TopicMap) : Prop :=
  (m.map Prod.fst).Nodup ∧ ∀ tp ∈ m, (tp.2.map Prod.fst).Nodup

/-- One fetched record, as the code reads it off the client message object.
`headersAccessible` models whether attribute access performed by
`get_guid_from_message` (which reads the message headers) succeeds or
raises `AttributeError`; `error` is the broker-reported transport error
returned by `message.error()`. -/
structure Message where
  topic : String
  partition : Nat
  offset : Nat
  key : String
  value : Option String
  headers : List (String × String)
  error : Option String
  headersAccessible : Bool
deriving DecidableEq

/-- Exceptions raised by the consumption paths of `consumer.py`:
`NoMessageError`, `ConsumeMessageError`, `FinishedTransactionBatch`, and
any exception raised by the underlying client poll, propagated unchanged
and modelled as `transportError`. -/
inductive ConsumerErr where
  | noMessageError
  | consumeMessageError (msg : String)
  | finishedTransactionBatch
  | transportError (e : String)
deriving DecidableEq

/-- Result of one `self._consumer.poll(timeout)` call: a message, the
None result (no message within the timeout), or a raised client
exception carried as text. -/
inductive PollResult where
  | polledMessage (m : Message)
  | noMessage
  | transportRaise (e : String)
deriving DecidableEq

/-- Configuration of `TransactionalConsumer` fixed at construction:
`_consume_max_time_secs`, `_consume_max_count`, `_store_batch_messages`,
whether a metrics manager was supplied, and the consumer group metadata
handed to `send_offsets_to_transaction`. -/
structure TxnConfig where
  consumeMaxTimeSecs : Option Nat
  consumeMaxCount : Option Nat
  storeBatchMessages : Bool
  metricsEnabled : Bool
  consumerGroupMetadata : String
deriving DecidableEq

/-- Mutable state of a `TransactionalConsumer` instance: `self.message`,
`self._batch_offset_starts`, `self._batch_offset_ends`, `self._messages`,
`self._consume_message_count`, `self._batch_time_elapse_start`, plus the
running counter held by the external metrics collaborator
(`inc_messages_consumed`), kept here so that metric emission is
observable. -/
structure TxnState where
  message : Option Message
  batchOffsetStarts : TopicMap
  batchOffsetEnds : TopicMap
  messages : List Message
  consumeMessageCount : Nat
  batchTimeElapseStart : Option Nat
  metricsConsumed : Nat
deriving DecidableEq

/-- State after `Consumer.__init__` plus `TransactionalConsumer._init_attrs`:
everything empty, no held message, no stamped batch start time. -/
def initialTxnState : TxnState :=
  { message := none, batchOffsetStarts := [], batchOffsetEnds := [], messages := [],
    consumeMessageCount := 0, batchTimeElapseStart := none, metricsConsumed := 0 }

/-- Exception text argument of the `ConsumeMessageError` raised by
`Consumer._handle_consumed_message`. -/
def corruptMessageText : String :=
  "Headers were inaccessible on the message. Potentially a corrupt message?"

/-- Substring tested against `str(self.message.error())` in
`Consumer._handle_consumed_message` to recognise the corrupt-message
signature. -/
def corruptSignature : String := "object has no attribute \x27headers\x27"

/-- Body of `Consumer._handle_consumed_message`: reading the guid (and so
the headers) may raise `AttributeError`; the handler catches it and, when
`str(self.message.error())` contains the corrupt signature, raises
`ConsumeMessageError`; any other `AttributeError` is swallowed and
execution falls through to the consumed-message metric, which fires
whenever a metrics manager is present. Returns whether the metric fired. -/
def handle_consumed_message_base (metricsEnabled : Bool) (m : Message) :
    Except ConsumerErr Bool :=
  if m.headersAccessible then Except.ok metricsEnabled
  else if strContains (pyStr m.error) corruptSignature then
    Except.error (ConsumerErr.consumeMessageError corruptMessageText)
  else Except.ok metricsEnabled

/-- `TransactionalConsumer._max_consume_count_continue`. -/
def max_consume_count_continue (cfg : TxnConfig) (count mult : Nat) : Bool :=
  if natOptTruthy cfg.consumeMaxCount then decide (count < cfg.consumeMaxCount.getD 0 * mult)
  else true

/-- `TransactionalConsumer._max_consume_time_continue`: returns the
continue flag together with the updated `_batch_time_elapse_start` (the
method stamps it lazily when unset and clears it when the time budget is
exhausted). Both wall-clock reads inside one call are modelled by the
single `now` argument. -/
def max_consume_time_continue (cfg : TxnConfig) (start : Option Nat) (now : Nat) :
    Bool × Option Nat :=
  if natOptTruthy cfg.consumeMaxTimeSecs then
    let start1 := if natOptTruthy start then start else some now
    let elapsed := now - start1.getD 0
    if elapsed < cfg.consumeMaxTimeSecs.getD 0 then (true, start1) else (false, none)
  else (true, start)

/-- `TransactionalConsumer._keep_consuming`: the count check runs first and
short-circuits, so the time check (and its side effect on
`_batch_time_elapse_start`) does not run when the count budget is spent. -/
def keep_consuming (cfg : TxnConfig) (count : Nat) (start : Option Nat) (now mult : Nat) :
    Bool × Option Nat :=
  if max_consume_count_continue cfg count mult then max_consume_time_continue cfg start now
  else (false, start)

/-- `TransactionalConsumer._mark_offset_start`: inserts the message offset
only when that (topic, partition) has no recorded start yet. -/
def mark_offset_start (starts : TopicMap) (m : Message) : TopicMap :=
  let starts1 :=
    if (dictGet m.topic starts).isSome then starts else dictSet m.topic ([] : PartMap) starts
  let pm := (dictGet m.topic starts1).getD []
  if (dictGet m.partition pm).isSome then starts1
  else dictSet m.topic (dictSet m.partition m.offset pm) starts1

/-- `TransactionalConsumer._mark_offset_end`: unconditionally overwrites
the recorded end offset for the message's (topic, partition). -/
def mark_offset_end (ends : TopicMap) (m : Message) : TopicMap :=
  let ends1 :=
    if (dictGet m.topic ends).isSome then ends else dictSet m.topic ([] : PartMap) ends
  let pm := (dictGet m.topic ends1).getD []
  dictSet m.topic (dictSet m.partition m.offset pm) ends1

/-- Batch bookkeeping appended by `TransactionalConsumer._handle_consumed_message`
after the base handler succeeded: mark start and end offsets, bump the
consumed count, and retain the message when `_store_batch_messages` is
enabled. -/
def bookkeep (cfg : TxnConfig) (st : TxnState) (m : Message) : TxnState :=
  { st with
    batchOffsetStarts := mark_offset_start st.batchOffsetStarts m
    batchOffsetEnds := mark_offset_end st.batchOffsetEnds m
    consumeMessageCount := st.consumeMessageCount + 1
    messages := if cfg.storeBatchMessages then st.messages ++ [m] else st.messages }

/-- `TransactionalConsumer.consume`: runs `_keep_consuming` (whose side
effect on `_batch_time_elapse_start` always lands), then either raises
`FinishedTransactionBatch`, or delegates to `Consumer.consume`
(assign `self.message`, run the overridden `_handle_consumed_message`).
A `NoMessageError` from the delegate is re-raised as
`FinishedTransactionBatch` when `_batch_offset_ends` is non-empty and
propagated unchanged otherwise. -/
def txn_consume (cfg : TxnConfig) (st : TxnState) (now mult : Nat) (poll : PollResult) :
    TxnState × Except ConsumerErr Message :=
  let kc := keep_consuming cfg st.consumeMessageCount st.batchTimeElapseStart now mult
  let st0 := { st with batchTimeElapseStart := kc.2 }
  if kc.1 then
    match poll with
    | PollResult.noMessage =>
        if st0.batchOffsetEnds ≠ [] then (st0, Except.error ConsumerErr.finishedTransactionBatch)
        else (st0, Except.error ConsumerErr.noMessageError)
    | PollResult.transportRaise e => (st0, Except.error (ConsumerErr.transportError e))
    | PollResult.polledMessage m =>
        let st1 := { st0 with message := some m }
        match handle_consumed_message_base cfg.metricsEnabled m with
        | Except.error e => (st1, Except.error e)
        | Except.ok metricFired =>
            let st2 :=
              if metricFired then { st1 with metricsConsumed := st1.metricsConsumed + 1 } else st1
            (bookkeep cfg st2 m, Except.ok m)
  else (st0, Except.error ConsumerErr.finishedTransactionBatch)

/-- State transition of one successful delegate consume inside a batch:
assign `self.message`, fire the metric, run the batch bookkeeping. This is
the success branch of `txn_consume`. -/
def consume_step (cfg : TxnConfig) (s : TxnState) (m : Message) : TxnState :=
  let s1 := { s with message := some m }
  let s2 := if cfg.metricsEnabled then { s1 with metricsConsumed := s1.metricsConsumed + 1 } else s1
  bookkeep cfg s2 m

/-- Fold of `consume_step` over a list of delivered messages: the batch
state after consuming them all in order. -/
def consume_batch (cfg : TxnConfig) (st : TxnState) (ms : List Message) : TxnState :=
  ms.foldl (consume_step cfg) st

/-- `TransactionalConsumer.pending_commits`: Python `bool(self._consume_message_count)`. -/
def pending_commits (st : TxnState) : Bool := decide (st.consumeMessageCount ≠ 0)

/-- `Consumer.key`: deep copy of the held message key (copying is identity
under Lean value semantics); none models the `AttributeError` of reading
through `self.message = None`. -/
def consumer_key (st : TxnState) : Option String := st.message.map Message.key

/-- `Consumer.value`, as `consumer_key`. -/
def consumer_value (st : TxnState) : Option (Option String) := st.message.map Message.value

/-- `Consumer.headers`, as `consumer_key` (the external `parse_headers`
utility is the identity on the modelled header list). -/
def consumer_headers (st : TxnState) : Option (List (String × String)) :=
  st.message.map Message.headers

/-- State of the external transactional producer visible to this code:
its `active_transaction` flag. -/
structure Producer where
  activeTransaction : Bool
deriving DecidableEq

/-- Producer interactions performed by `TransactionalConsumer._commit`,
recorded as a trace. -/
inductive ProducerAction where
  | beginTransaction
  | sendOffsetsToTransaction (offsets : List (String × Nat × Nat)) (groupMetadata : String)
  | commitTransaction (timeoutSecs : Nat)
deriving DecidableEq

/-- `TransactionalConsumer._commit`. The producer class itself is outside
the excerpted source; its flag semantics are Modelled from the spec:
`beginTransaction()` opens a transaction (making `activeTransaction`
true), `commitTransaction(timeoutSeconds)` commits and closes it. -/
def commit_aux (producer : Producer) (offsets : List (String × Nat × Nat))
    (groupMetadata : String) : Producer × List ProducerAction :=
  let s1 :=
    if offsets ≠ [] then
      let s0 :=
        if producer.activeTransaction then (producer, ([] : List ProducerAction))
        else ({ activeTransaction := true }, [ProducerAction.beginTransaction])
      (s0.1, s0.2 ++ [ProducerAction.sendOffsetsToTransaction offsets groupMetadata])
    else (producer, [])
  if s1.1.activeTransaction then
    ({ activeTransaction := false }, s1.2 ++ [ProducerAction.commitTransaction 30])
  else (s1.1, s1.2)

/-- The offsets list built by `TransactionalConsumer.commit`:
`TopicPartition(topic, partition, offset + 1)` for every tracked end, in
dict iteration order. -/
def offsets_to_commit (ends : TopicMap) : List (String × Nat × Nat) :=
  (ends.map (fun tp => tp.2.map (fun po => (tp.1, po.1, po.2 + 1)))).flatten

/-- `TransactionalConsumer.commit`: build the offsets, run `_commit`,
clear the held message, and run `_init_attrs` (which clears the offset
dicts, the retained messages and the consumed count, but does not touch
`_batch_time_elapse_start`). -/
def txn_commit (cfg : TxnConfig) (st : TxnState) (producer : Producer) :
    TxnState × Producer × List ProducerAction :=
  let offsets := offsets_to_commit st.batchOffsetEnds
  let pa := commit_aux producer offsets cfg.consumerGroupMetadata
  ({ st with message := none, batchOffsetStarts := [], batchOffsetEnds := [],
             messages := [], consumeMessageCount := 0 }, pa.1, pa.2)

/-- `TransactionalConsumer._get_consumer_partition_assignment`: regroup the
raw client assignment (a list of topic-partition objects) into a dict from
topic to its partition list. The Python `set(...)` iteration is modelled
by deduplicating the topic list. -/
def get_consumer_partition_assignment (raw : List (String × Nat)) :
    List (String × List Nat) :=
  ((raw.map Prod.fst).dedup).map
    (fun t => (t, (raw.filter (fun o => decide (o.1 = t))).map Prod.snd))

/-- `TransactionalConsumer.rollback_consumption`: a seek is issued for every
tracked start offset whose partition is in the current assignment for its
topic (`assignments.get(topic, [])`), in iteration order; afterwards
`_init_attrs` clears the offset dicts, the retained messages and the
count. Returns the post state and the seek trace. -/
def rollback_consumption (st : TxnState) (raw : List (String × Nat)) :
    TxnState × List (String × Nat × Nat) :=
  let assignments := get_consumer_partition_assignment raw
  let seeks := (st.batchOffsetStarts.map (fun tp =>
      (tp.2.filter (fun po => decide (po.1 ∈ (dictGet tp.1 assignments).getD []))).map
        (fun po => (tp.1, po.1, po.2)))).flatten
  ({ st with batchOffsetStarts := [], batchOffsetEnds := [], messages := [],
             consumeMessageCount := 0 }, seeks)

/-- Does the message belong to topic `t`, partition `p`. -/
def keyMatch (t : String) (p : Nat) (m : Message) : Bool :=
  decide (m.topic = t) && decide (m.partition = p)

/-- Offset of the first message of the list delivered for (t, p). -/
def firstOffsetIn (ms : List Message) (t : String) (p : Nat) : Option Nat :=
  ((ms.filter (keyMatch t p)).map Message.offset).head?

/-- Offset of the last message of the list delivered for (t, p). -/
def lastOffsetIn (ms : List Message) (t : String) (p : Nat) : Option Nat :=
  ((ms.filter (keyMatch t p)).map Message.offset).getLast?

/-- Broker delivery guarantee assumed by the offset-range invariants:
within the delivered sequence, offsets of two messages of the same
(topic, partition) appear in non-decreasing order. -/
def perPartitionMonotone (ms : List Message) : Prop :=
  ms.Pairwise (fun m1 m2 => m1.topic = m2.topic → m1.partition = m2.partition →
    m1.offset ≤ m2.offset)

/-- Fixture configuration with no batch bounds, retention and metrics on. -/
def cfgA : TxnConfig :=
  { consumeMaxTimeSecs := none, consumeMaxCount := none, storeBatchMessages := true,
    metricsEnabled := true, consumerGroupMetadata := "group-meta" }

/-- Fixture configuration with a count bound of five and no time bound. -/
def cfgCount5 : TxnConfig :=
  { consumeMaxTimeSecs := none, consumeMaxCount := some 5, storeBatchMessages := false,
    metricsEnabled := false, consumerGroupMetadata := "group-meta" }

/-- Fixture configuration with a ten second time bound and no count bound. -/
def cfgTime10 : TxnConfig :=
  { consumeMaxTimeSecs := some 10, consumeMaxCount := none, storeBatchMessages := false,
    metricsEnabled := false, consumerGroupMetadata := "group-meta" }

/-- Fixture: a healthy message at offset 10 of partition 0 of topic T. -/
def msgA : Message :=
  { topic := "T", partition := 0, offset := 10, key := "k1", value := some "v1",
    headers := [("guid", "g1")], error := none, headersAccessible := true }

/-- Fixture: a healthy message at offset 11 of partition 0 of topic T. -/
def msgB : Message :=
  { topic := "T", partition := 0, offset := 11, key := "k2", value := some "v2",
    headers := [("guid", "g2")], error := none, headersAccessible := true }

/-- Fixture: a corrupt message whose transport error carries the
headers-inaccessible signature. -/
def msgCorrupt : Message :=
  { topic := "T", partition := 0, offset := 12, key := "k3", value := none, headers := [],
    error := some "KafkaException: object has no attribute \x27headers\x27",
    headersAccessible := false }

/-- Fixture batch state tracking end offset 41 for (T, 0), one consumed
message, window start stamped at 5. -/
def stEnds41 : TxnState :=
  { message := none, batchOffsetStarts := [("T", [(0, 37)])],
    batchOffsetEnds := [("T", [(0, 41)])], messages := [], consumeMessageCount := 1,
    batchTimeElapseStart := some 5, metricsConsumed := 1 }

/-- Fixture batch state with five consumed messages, count budget spent. -/
def stCount5 : TxnState :=
  { message := none, batchOffsetStarts := [("T", [(0, 37)])],
    batchOffsetEnds := [("T", [(0, 41)])], messages := [], consumeMessageCount := 5,
    batchTimeElapseStart := none, metricsConsumed := 5 }

/-- Fixture batch state for rollback: tracked starts 10 for (T, 0) and 7
for (T, 1). -/
def stRoll : TxnState :=
  { message := none, batchOffsetStarts := [("T", [(0, 10), (1, 7)])],
    batchOffsetEnds := [("T", [(0, 12), (1, 9)])], messages := [], consumeMessageCount := 2,
    batchTimeElapseStart := none, metricsConsumed := 2 }

theorem optOr_some_left {α : Type} (a : α) (b : Option α) : (some a).or b = some a := rfl

theorem optOr_none_left {α : Type} (b : Option α) : (none : Option α).or b = b := by
  cases b <;> rfl

theorem optOr_assoc {α : Type} (a b c : Option α) : (a.or b).or c = a.or (b.or c) := by
  cases a <;> cases b <;> rfl

theorem optOr_none_right {α : Type} (a : Option α) : a.or none = a := by
  cases a <;> rfl

theorem dictGet_dictSet_same {κ α : Type} [DecidableEq κ] (k : κ) (v : α)
    (l : List (κ × α)) : dictGet k (dictSet k v l) = some v := by
  induction l with
  | nil => simp [dictGet, dictSet]
  | cons hd tl ih =>
    obtain ⟨k0, v0⟩ := hd
    by_cases h : k0 = k <;> simp [dictGet, dictSet, h, ih]

theorem dictGet_dictSet_other {κ α : Type} [DecidableEq κ] (k k' : κ) (v : α)
    (l : List (κ × α)) (h : k' ≠ k) : dictGet k' (dictSet k v l) = dictGet k' l := by
  have hk : k ≠ k' := fun hh => h hh.symm
  induction l with
  | nil => simp [dictGet, dictSet, hk]
  | cons hd tl ih =>
    obtain ⟨k0, v0⟩ := hd
    by_cases h0 : k0 = k
    · subst h0
      simp [dictGet, dictSet, hk]
    · by_cases h1 : k0 = k' <;> simp [dictGet, dictSet, h0, h1, ih, h]

theorem lookup2_eq_getD (S : TopicMap) (t : String) (p : Nat) :
    lookup2 S t p = dictGet p ((dictGet t S).getD []) := by
  unfold lookup2
  cases dictGet t S <;> simp [dictGet]

theorem dictGet_ensure (S : TopicMap) (k : String) :
    dictGet k (if (dictGet k S).isSome then S else dictSet k ([] : PartMap) S) =
      some ((dictGet k S).getD []) := by
  cases h : dictGet k S with
  | none => simp [h, dictGet_dictSet_same]
  | some pm => simp [h]

theorem dictGet_ensure_other (S : TopicMap) (k t : String) (h : t ≠ k) :
    dictGet t (if (dictGet k S).isSome then S else dictSet k ([] : PartMap) S) =
      dictGet t S := by
  cases hk : dictGet k S with
  | none => simp [hk, dictGet_dictSet_other k t _ S h]
  | some pm => simp [hk]

theorem lookup2_ensure (S : TopicMap) (k t : String) (p : Nat) :
    lookup2 (if (dictGet k S).isSome then S else dictSet k ([] : PartMap) S) t p =
      lookup2 S t p := by
  by_cases ht : t = k
  · subst ht
    rw [lookup2_eq_getD, lookup2_eq_getD, dictGet_ensure, Option.getD_some]
  · rw [lookup2_eq_getD, lookup2_eq_getD, dictGet_ensure_other S k t ht]


theorem lookup2_mark_offset_start (S : TopicMap) (m : Message) (t : String) (p : Nat) :
    lookup2 (mark_offset_start S m) t p =
      if t = m.topic ∧ p = m.partition then Option.or (lookup2 S t p) (some m.offset)
      else lookup2 S t p := by
  simp only [lookup2_eq_getD]
  unfold mark_offset_start
  cases hT : dictGet m.topic S with
  | none =>
    simp only [hT, Option.isSome_none, Bool.false_eq_true, if_false, dictGet_dictSet_same,
      Option.getD_some, Option.getD_none]
    by_cases ht : t = m.topic
    · by_cases hp : p = m.partition
      · simp [ht, hp, hT, dictGet, dictGet_dictSet_same, optOr_none_left]
      · simp [ht, hp, hT, dictGet, dictGet_dictSet_same, dictGet_dictSet_other _ _ _ _ hp]
    · simp [ht, hT, dictGet, dictGet_dictSet_other _ _ _ _ ht]
  | some pm =>
    simp only [hT, Option.isSome_some, if_true, Option.getD_some]
    cases hP : dictGet m.partition pm with
    | none =>
      simp only [hP, Option.isSome_none, Bool.false_eq_true, if_false]
      by_cases ht : t = m.topic
      · by_cases hp : p = m.partition
        · simp [ht, hp, hT, hP, dictGet_dictSet_same, optOr_none_left]
        · simp [ht, hp, hT, dictGet_dictSet_same, dictGet_dictSet_other _ _ _ _ hp]
      · simp [ht, dictGet_dictSet_other _ _ _ _ ht]
    | some o =>
      simp only [hP, Option.isSome_some, if_true]
      by_cases ht : t = m.topic
      · by_cases hp : p = m.partition
        · simp [ht, hp, hT, hP, optOr_some_left]
        · simp [ht, hp]
      · simp [ht]

theorem lookup2_mark_offset_end (E : TopicMap) (m : Message) (t : String) (p : Nat) :
    lookup2 (mark_offset_end E m) t p =
      if t = m.topic ∧ p = m.partition then some m.offset
      else lookup2 E t p := by
  simp only [lookup2_eq_getD]
  unfold mark_offset_end
  cases hT : dictGet m.topic E with
  | none =>
    simp only [hT, Option.isSome_none, Bool.false_eq_true, if_false, dictGet_dictSet_same,
      Option.getD_some, Option.getD_none]
    by_cases ht : t = m.topic
    · by_cases hp : p = m.partition
      · simp [ht, hp, dictGet_dictSet_same]
      · simp [ht, hp, hT, dictGet, dictGet_dictSet_same, dictGet_dictSet_other _ _ _ _ hp]
    · simp [ht, hT, dictGet, dictGet_dictSet_other _ _ _ _ ht]
  | some pm =>
    simp only [hT, Option.isSome_some, if_true, Option.getD_some]
    by_cases ht : t = m.topic
    · by_cases hp : p = m.partition
      · simp [ht, hp, hT, dictGet_dictSet_same]
      · simp [ht, hp, hT, dictGet_dictSet_same, dictGet_dictSet_other _ _ _ _ hp]
    · simp [ht, dictGet_dictSet_other _ _ _ _ ht]

theorem consume_step_starts (cfg : TxnConfig) (s : TxnState) (m : Message) :
    (consume_step cfg s m).batchOffsetStarts = mark_offset_start s.batchOffsetStarts m := by
  by_cases hm : cfg.metricsEnabled <;> simp [consume_step, bookkeep, hm]

theorem consume_step_ends (cfg : TxnConfig) (s : TxnState) (m : Message) :
    (consume_step cfg s m).batchOffsetEnds = mark_offset_end s.batchOffsetEnds m := by
  by_cases hm : cfg.metricsEnabled <;> simp [consume_step, bookkeep, hm]

theorem keyMatch_iff (t : String) (p : Nat) (m : Message) :
    keyMatch t p m = true ↔ (t = m.topic ∧ p = m.partition) := by
  constructor
  · intro h
    simp only [keyMatch, Bool.and_eq_true, decide_eq_true_eq] at h
    exact ⟨h.1.symm, h.2.symm⟩
  · rintro ⟨h1, h2⟩
    subst h1; subst h2
    simp [keyMatch]

theorem firstOffsetIn_cons (m : Message) (ms : List Message) (t : String) (p : Nat) :
    firstOffsetIn (m :: ms) t p =
      if t = m.topic ∧ p = m.partition then some m.offset else firstOffsetIn ms t p := by
  by_cases hc : t = m.topic ∧ p = m.partition
  · obtain ⟨h1, h2⟩ := hc
    subst h1; subst h2
    have hk : keyMatch m.topic m.partition m = true := (keyMatch_iff _ _ m).mpr ⟨rfl, rfl⟩
    simp [firstOffsetIn, List.filter_cons, hk]
  · have hk : ¬keyMatch t p m = true := fun hh => hc ((keyMatch_iff t p m).mp hh)
    simp [firstOffsetIn, List.filter_cons, hk, hc]

theorem getLast?_cons_or {α : Type} (a : α) (l : List α) :
    (a :: l).getLast? = l.getLast?.or (some a) := by
  induction l generalizing a with
  | nil => rfl
  | cons b bs ih =>
    rw [List.getLast?_cons_cons, ih b]
    cases hbs : bs.getLast? <;> simp [Option.or]

theorem lastOffsetIn_cons (m : Message) (ms : List Message) (t : String) (p : Nat) :
    lastOffsetIn (m :: ms) t p =
      if t = m.topic ∧ p = m.partition then (lastOffsetIn ms t p).or (some m.offset)
      else lastOffsetIn ms t p := by
  by_cases hc : t = m.topic ∧ p = m.partition
  · obtain ⟨h1, h2⟩ := hc
    subst h1; subst h2
    have hk : keyMatch m.topic m.partition m = true := (keyMatch_iff _ _ m).mpr ⟨rfl, rfl⟩
    simp only [lastOffsetIn, List.filter_cons, hk, if_true, List.map_cons,
      eq_self_iff_true, and_self]
    exact getLast?_cons_or m.offset _
  · have hk : ¬keyMatch t p m = true := fun hh => hc ((keyMatch_iff t p m).mp hh)
    simp [lastOffsetIn, List.filter_cons, hk, hc]

theorem consume_batch_starts (cfg : TxnConfig) (ms : List Message) :
    ∀ (st : TxnState) (t : String) (p : Nat),
      lookup2 (consume_batch cfg st ms).batchOffsetStarts t p =
        (lookup2 st.batchOffsetStarts t p).or (firstOffsetIn ms t p) := by
  induction ms with
  | nil =>
    intro st t p
    simp [consume_batch, firstOffsetIn, optOr_none_right]
  | cons m ms ih =>
    intro st t p
    have hstep : consume_batch cfg st (m :: ms) = consume_batch cfg (consume_step cfg st m) ms :=
      rfl
    rw [hstep, ih, consume_step_starts, lookup2_mark_offset_start, firstOffsetIn_cons]
    by_cases hc : t = m.topic ∧ p = m.partition
    · rw [if_pos hc, if_pos hc, optOr_assoc, optOr_some_left]
    · rw [if_neg hc, if_neg hc]

theorem consume_batch_ends (cfg : TxnConfig) (ms : List Message) :
    ∀ (st : TxnState) (t : String) (p : Nat),
      lookup2 (consume_batch cfg st ms).batchOffsetEnds t p =
        (lastOffsetIn ms t p).or (lookup2 st.batchOffsetEnds t p) := by
  induction ms with
  | nil =>
    intro st t p
    simp [consume_batch, lastOffsetIn, optOr_none_left]
  | cons m ms ih =>
    intro st t p
    have hstep : consume_batch cfg st (m :: ms) = consume_batch cfg (consume_step cfg st m) ms :=
      rfl
    rw [hstep, ih, consume_step_ends, lookup2_mark_offset_end, lastOffsetIn_cons]
    by_cases hc : t = m.topic ∧ p = m.partition
    · rw [if_pos hc, if_pos hc, optOr_assoc, optOr_some_left]
    · rw [if_neg hc, if_neg hc]

theorem offsetsPairwise (ms : List Message) (h : perPartitionMonotone ms) (t : String) (p : Nat) :
    ((ms.filter (keyMatch t p)).map Message.offset).Pairwise (fun a b => a ≤ b) := by
  rw [List.pairwise_map]
  refine List.Pairwise.imp_of_mem ?_ (List.Pairwise.filter (keyMatch t p) h)
  intro a b ha hb hr
  obtain ⟨hat, hap⟩ := (keyMatch_iff t p a).mp (List.mem_filter.mp ha).2
  obtain ⟨hbt, hbp⟩ := (keyMatch_iff t p b).mp (List.mem_filter.mp hb).2
  exact hr (by rw [← hat, ← hbt]) (by rw [← hap, ← hbp])

theorem mem_of_getLast?_nat (l : List Nat) (a : Nat) (h : l.getLast? = some a) : a ∈ l := by
  obtain ⟨hne, hxa⟩ := List.mem_getLast?_eq_getLast (l := l) (x := a) (by simp [h, Option.mem_def])
  rw [hxa]
  exact List.getLast_mem hne

theorem getLast?_le_append (A R : List Nat) (h : (A ++ R).Pairwise (fun a b => a ≤ b))
    (a : Nat) (ha : A.getLast? = some a) :
    ∃ b, (A ++ R).getLast? = some b ∧ a ≤ b := by
  by_cases hR : R = []
  · subst hR
    exact ⟨a, by simpa using ha, le_refl a⟩
  · obtain ⟨b, hb⟩ := Option.isSome_iff_exists.mp (List.getLast?_isSome.mpr hR)
    refine ⟨b, ?_, ?_⟩
    · rw [List.getLast?_append_of_ne_nil A hR, hb]
    · exact (List.pairwise_append.mp h).2.2 a (mem_of_getLast?_nat A a ha)
        b (mem_of_getLast?_nat R b hb)

theorem head?_le_getLast? (l : List Nat) (h : l.Pairwise (fun a b => a ≤ b))
    (a b : Nat) (ha : l.head? = some a) (hb : l.getLast? = some b) : a ≤ b := by
  cases l with
  | nil => cases ha
  | cons x xs =>
    have hax : x = a := by simpa using ha
    subst hax
    obtain ⟨b', hb', hab⟩ := getLast?_le_append [x] xs (by simpa using h) x rfl
    simp only [List.singleton_append] at hb'
    rw [hb'] at hb
    cases hb
    exact hab

theorem take_decomp {α : Type} (l : List α) (i j : Nat) (hij : i ≤ j) :
    l.take i ++ (l.take j).drop i = l.take j := by
  have h2 := List.take_append_drop i (l.take j)
  rw [List.take_take, inf_eq_left.mpr hij] at h2
  exact h2

theorem firstOffsetIn_take_eq (ms : List Message) (t : String) (p : Nat) (i j : Nat)
    (hij : i ≤ j) (a : Nat) (ha : firstOffsetIn (ms.take i) t p = some a) :
    firstOffsetIn (ms.take j) t p = some a := by
  rw [← take_decomp ms i j hij]
  unfold firstOffsetIn at ha ⊢
  rw [List.filter_append, List.map_append, List.head?_append, ha, optOr_some_left]

theorem lastOffsetIn_take_le (ms : List Message) (hm : perPartitionMonotone ms)
    (t : String) (p : Nat) (i j : Nat) (hij : i ≤ j) (b : Nat)
    (hb : lastOffsetIn (ms.take i) t p = some b) :
    ∃ c, lastOffsetIn (ms.take j) t p = some c ∧ b ≤ c := by
  have hpw : (((ms.take j).filter (keyMatch t p)).map Message.offset).Pairwise
      (fun a b => a ≤ b) :=
    offsetsPairwise (ms.take j) (List.Pairwise.sublist (List.take_sublist j ms) hm) t p
  rw [← take_decomp ms i j hij] at hpw ⊢
  unfold lastOffsetIn at hb ⊢
  rw [List.filter_append, List.map_append] at hpw ⊢
  exact getLast?_le_append _ _ hpw b hb

theorem dictGet_map_self {α : Type} (ts : List String) (f : String → α) (t : String) :
    dictGet t (ts.map (fun x => (x, f x))) = if t ∈ ts then some (f t) else none := by
  induction ts with
  | nil => simp [dictGet]
  | cons a as ih =>
    by_cases h : a = t
    · subst h
      simp [dictGet, List.mem_cons]
    · have h2 : ¬t = a := fun hh => h hh.symm
      simp [dictGet, h, h2, List.mem_cons, ih]

theorem mem_assignment (raw : List (String × Nat)) (t : String) (p : Nat) :
    p ∈ (dictGet t (get_consumer_partition_assignment raw)).getD [] ↔ (t, p) ∈ raw := by
  unfold get_consumer_partition_assignment
  rw [dictGet_map_self]
  by_cases ht : t ∈ (raw.map Prod.fst).dedup
  · rw [if_pos ht, Option.getD_some]
    simp only [List.mem_map, List.mem_filter, decide_eq_true_eq]
    constructor
    · rintro ⟨o, ⟨ho, hot⟩, hop⟩
      have hto : (t, p) = o := by rw [← hot, ← hop]
      rw [hto]
      exact ho
    · intro h
      exact ⟨(t, p), ⟨h, rfl⟩, rfl⟩
  · rw [if_neg ht, Option.getD_none]
    simp only [List.not_mem_nil, false_iff]
    intro hmem
    exact ht (List.mem_dedup.mpr (List.mem_map.mpr ⟨(t, p), hmem, rfl⟩))

theorem dictGet_eq_some_iff_mem {κ α : Type} [DecidableEq κ] (l : List (κ × α))
    (hn : (l.map Prod.fst).Nodup) (k : κ) (v : α) :
    dictGet k l = some v ↔ (k, v) ∈ l := by
  induction l with
  | nil => simp [dictGet]
  | cons hd tl ih =>
    obtain ⟨k0, v0⟩ := hd
    simp only [List.map_cons, List.nodup_cons] at hn
    by_cases h : k0 = k
    · subst h
      simp only [dictGet, eq_self_iff_true, if_true, List.mem_cons, Option.some.injEq]
      constructor
      · rintro rfl
        left
        rfl
      · rintro (h1 | h1)
        · simp only [Prod.mk.injEq] at h1
          exact h1.2.symm
        · exact absurd (List.mem_map.mpr ⟨(k0, v), h1, rfl⟩) hn.1
    · have hne : ¬(k, v) = (k0, v0) := by
        intro hh
        exact h (congrArg Prod.fst hh).symm
      simp [dictGet, h, ih hn.2, List.mem_cons, hne]

theorem dictGet_filter_nil (pm : PartMap) (p : Nat) (hnp : p ∉ pm.map Prod.fst) (t : String) :
    (pm.map (fun po => (t, po.1, po.2 + 1))).filter
        (fun x => decide (x.1 = t) && decide (x.2.1 = p)) = [] := by
  rw [List.filter_eq_nil_iff]
  intro a ha
  obtain ⟨po, hpo, rfl⟩ := List.mem_map.mp ha
  simp only [Bool.and_eq_true, decide_eq_true_eq, not_and]
  intro _ hpp
  exact hnp (List.mem_map.mpr ⟨po, hpo, hpp⟩)

theorem block_filter_nil (pm : PartMap) (t0 t : String) (hne : t0 ≠ t) (p : Nat) :
    (pm.map (fun po => (t0, po.1, po.2 + 1))).filter
        (fun x => decide (x.1 = t) && decide (x.2.1 = p)) = [] := by
  rw [List.filter_eq_nil_iff]
  intro a ha
  obtain ⟨po, hpo, rfl⟩ := List.mem_map.mp ha
  simp [hne]

theorem dictGet_filter_eq (pm : PartMap) (hn : (pm.map Prod.fst).Nodup) (p o : Nat)
    (h : dictGet p pm = some o) (t : String) :
    (pm.map (fun po => (t, po.1, po.2 + 1))).filter
        (fun x => decide (x.1 = t) && decide (x.2.1 = p)) = [(t, p, o + 1)] := by
  induction pm with
  | nil => simp [dictGet] at h
  | cons hd tl ih =>
    obtain ⟨p0, o0⟩ := hd
    simp only [List.map_cons, List.nodup_cons] at hn
    by_cases hp : p0 = p
    · subst hp
      simp only [dictGet, eq_self_iff_true, if_true, Option.some.injEq] at h
      subst h
      simp [List.filter_cons, dictGet_filter_nil tl p0 hn.1 t]
    · simp only [dictGet, if_neg hp] at h
      simp [List.filter_cons, hp, ih hn.2 h]

theorem offsets_filter_nil (E : TopicMap) (t : String) (hnt : t ∉ E.map Prod.fst) (p : Nat) :
    (offsets_to_commit E).filter (fun x => decide (x.1 = t) && decide (x.2.1 = p)) = [] := by
  rw [List.filter_eq_nil_iff]
  intro a ha
  obtain ⟨l, hl, hal⟩ := List.mem_flatten.mp ha
  obtain ⟨tp, htp, rfl⟩ := List.mem_map.mp hl
  obtain ⟨po, hpo, rfl⟩ := List.mem_map.mp hal
  simp only [Bool.and_eq_true, decide_eq_true_eq, not_and]
  intro h1 _
  exact hnt (List.mem_map.mpr ⟨tp, htp, h1⟩)

theorem offsets_filter (E : TopicMap) (h : TopicMapWF E) (t : String) (p o : Nat)
    (hl : lookup2 E t p = some o) :
    (offsets_to_commit E).filter (fun x => decide (x.1 = t) && decide (x.2.1 = p)) =
      [(t, p, o + 1)] := by
  induction E with
  | nil => simp [lookup2, dictGet] at hl
  | cons hd tl ih =>
    obtain ⟨t0, pm0⟩ := hd
    obtain ⟨hn, hin⟩ := h
    simp only [List.map_cons, List.nodup_cons] at hn
    rw [lookup2_eq_getD] at hl
    have hblocks : offsets_to_commit ((t0, pm0) :: tl) =
        (pm0.map (fun po => (t0, po.1, po.2 + 1))) ++ offsets_to_commit tl := by
      simp [offsets_to_commit]
    rw [hblocks, List.filter_append]
    by_cases ht : t0 = t
    · subst ht
      simp only [dictGet, eq_self_iff_true, if_true, Option.getD_some] at hl
      rw [dictGet_filter_eq pm0 (hin (t0, pm0) (List.mem_cons_self _ _)) p o hl t0,
        offsets_filter_nil tl t0 hn.1 p]
      simp
    · simp only [dictGet, if_neg ht] at hl
      rw [block_filter_nil pm0 t0 t ht p]
      rw [← lookup2_eq_getD] at hl
      rw [ih ⟨hn.2, fun tp htp => hin tp (List.mem_cons_of_mem _ htp)⟩ hl]
      simp

theorem mem_offsets_to_commit (E : TopicMap) (h : TopicMapWF E) (x : String × Nat × Nat)
    (hx : x ∈ offsets_to_commit E) :
    ∃ o, lookup2 E x.1 x.2.1 = some o ∧ x.2.2 = o + 1 := by
  obtain ⟨l, hl, hal⟩ := List.mem_flatten.mp hx
  obtain ⟨tp, htp, rfl⟩ := List.mem_map.mp hl
  obtain ⟨po, hpo, rfl⟩ := List.mem_map.mp hal
  refine ⟨po.2, ?_, rfl⟩
  rw [lookup2_eq_getD]
  have h1 : dictGet tp.1 E = some tp.2 :=
    (dictGet_eq_some_iff_mem E h.1 tp.1 tp.2).mpr htp
  rw [h1, Option.getD_some]
  exact (dictGet_eq_some_iff_mem tp.2 (h.2 tp htp) po.1 po.2).mpr hpo

theorem handle_base_error_shape (me : Bool) (m : Message) (e : ConsumerErr)
    (h : handle_consumed_message_base me m = Except.error e) :
    e = ConsumerErr.consumeMessageError corruptMessageText := by
  unfold handle_consumed_message_base at h
  by_cases h1 : m.headersAccessible
  · simp [h1] at h
  · by_cases h2 : strContains (pyStr m.error) corruptSignature
    · simp [h1, h2] at h
      exact h.symm
    · simp [h1, h2] at h

/-- C3: when `_consume_max_count` is set (truthy) and the consumed count has
reached `max_count * consume_multiplier`, `consume` raises
`FinishedTransactionBatch` with the state fully unchanged, for every poll
outcome and every wall-clock time - the fetch client is never consulted and
elapsed time is irrelevant. -/
theorem c3_count_budget_exhausted (cfg : TxnConfig) (st : TxnState) (now mult : Nat)
    (poll : PollResult) (c : Nat) (hmax : cfg.consumeMaxCount = some c) (hc : c ≠ 0)
    (hcount : c * mult ≤ st.consumeMessageCount) :
    txn_consume cfg st now mult poll =
      (st, Except.error ConsumerErr.finishedTransactionBatch) := by
  have hcc : max_consume_count_continue cfg st.consumeMessageCount mult = false := by
    simp [max_consume_count_continue, hmax, natOptTruthy, hc]
    omega
  have hkc : keep_consuming cfg st.consumeMessageCount st.batchTimeElapseStart now mult =
      (false, st.batchTimeElapseStart) := by
    simp [keep_consuming, hcc]
  simp [txn_consume, hkc]

/-- C3 witness: the sixth consume call of a batch with `max_count = 5` and
default multiplier raises `FinishedTransactionBatch` unchanged, here at an
arbitrary large wall time and with a message actually available. -/
theorem c3_count_budget_exhausted_witness :
    txn_consume cfgCount5 stCount5 999999 1 (PollResult.polledMessage msgA) =
      (stCount5, Except.error ConsumerErr.finishedTransactionBatch) :=
  c3_count_budget_exhausted cfgCount5 stCount5 999999 1 (PollResult.polledMessage msgA) 5
    rfl (by decide) (by decide)

/-- C2: when the batch window still permits consuming and the poll returns no
message, `consume` raises `FinishedTransactionBatch` if any end offset is
tracked, and re-raises `NoMessageError` unchanged if the batch is empty. -/
theorem c2_noMessage_reinterpretation (cfg : TxnConfig) (st : TxnState) (now mult : Nat)
    (hcont :
      (keep_consuming cfg st.consumeMessageCount st.batchTimeElapseStart now mult).1 = true) :
    (st.batchOffsetEnds ≠ [] →
      (txn_consume cfg st now mult PollResult.noMessage).2 =
        Except.error ConsumerErr.finishedTransactionBatch) ∧
    (st.batchOffsetEnds = [] →
      (txn_consume cfg st now mult PollResult.noMessage).2 =
        Except.error ConsumerErr.noMessageError) := by
  constructor
  · intro hne
    simp [txn_consume, hcont, hne]
  · intro he
    simp [txn_consume, hcont, he]

/-- C2 witness: with no bounds configured, the call on a batch with tracked
ends gives `FinishedTransactionBatch` and the call on an empty batch gives
`NoMessageError`. -/
theorem c2_noMessage_reinterpretation_witness :
    (txn_consume cfgA stEnds41 0 1 PollResult.noMessage).2 =
        Except.error ConsumerErr.finishedTransactionBatch ∧
    (txn_consume cfgA initialTxnState 0 1 PollResult.noMessage).2 =
        Except.error ConsumerErr.noMessageError :=
  ⟨(c2_noMessage_reinterpretation cfgA stEnds41 0 1 (by decide)).1 (by decide),
   (c2_noMessage_reinterpretation cfgA initialTxnState 0 1 (by decide)).2 rfl⟩

/-- C6: with a truthy time bound, a count budget that still permits
consuming, and a stamped window start such that the elapsed wall time has
reached the bound, `consume` raises `FinishedTransactionBatch` for every
poll outcome (the fetch client is not consulted) and clears the window
start timestamp. -/
theorem c6_time_budget_exhausted (cfg : TxnConfig) (st : TxnState) (now mult : Nat)
    (poll : PollResult) (d s : Nat)
    (hd : cfg.consumeMaxTimeSecs = some d) (hd0 : d ≠ 0)
    (hcount : max_consume_count_continue cfg st.consumeMessageCount mult = true)
    (hs : st.batchTimeElapseStart = some s) (hs0 : s ≠ 0)
    (helapsed : d ≤ now - s) :
    txn_consume cfg st now mult poll =
      ({ st with batchTimeElapseStart := none },
       Except.error ConsumerErr.finishedTransactionBatch) := by
  have htc : max_consume_time_continue cfg st.batchTimeElapseStart now = (false, none) := by
    simp [max_consume_time_continue, hd, hs, natOptTruthy, hd0, hs0]
    omega
  have hkc : keep_consuming cfg st.consumeMessageCount st.batchTimeElapseStart now mult =
      (false, none) := by
    simp [keep_consuming, hcount, htc]
  simp [txn_consume, hkc]

/-- C6 witness: bound of 10 seconds, first message at t = 5, consume call at
t = 16: exhausted, start cleared. -/
theorem c6_time_budget_exhausted_witness :
    txn_consume cfgTime10 stEnds41 16 1 PollResult.noMessage =
      ({ stEnds41 with batchTimeElapseStart := none },
       Except.error ConsumerErr.finishedTransactionBatch) :=
  c6_time_budget_exhausted cfgTime10 stEnds41 16 1 PollResult.noMessage 10 5 rfl (by decide)
    (by decide) rfl (by decide) (by decide)

/-- C9: a `consume` call that raises `FinishedTransactionBatch` or
`NoMessageError` leaves the offset dicts, count, retained messages, held
message and metric counter unchanged; only the window start timestamp may
differ. -/
theorem c9_failing_consume_preserves_state (cfg : TxnConfig) (st : TxnState)
    (now mult : Nat) (poll : PollResult)
    (h : (txn_consume cfg st now mult poll).2 =
          Except.error ConsumerErr.finishedTransactionBatch ∨
        (txn_consume cfg st now mult poll).2 = Except.error ConsumerErr.noMessageError) :
    (txn_consume cfg st now mult poll).1.batchOffsetStarts = st.batchOffsetStarts ∧
    (txn_consume cfg st now mult poll).1.batchOffsetEnds = st.batchOffsetEnds ∧
    (txn_consume cfg st now mult poll).1.consumeMessageCount = st.consumeMessageCount ∧
    (txn_consume cfg st now mult poll).1.messages = st.messages ∧
    (txn_consume cfg st now mult poll).1.message = st.message ∧
    (txn_consume cfg st now mult poll).1.metricsConsumed = st.metricsConsumed := by
  by_cases hkc :
      (keep_consuming cfg st.consumeMessageCount st.batchTimeElapseStart now mult).1 = true
  · cases poll with
    | noMessage =>
      by_cases hends : st.batchOffsetEnds = [] <;> simp [txn_consume, hkc, hends]
    | transportRaise e =>
      simp [txn_consume, hkc] at h
    | polledMessage m =>
      cases hh : handle_consumed_message_base cfg.metricsEnabled m with
      | error e =>
        have he := handle_base_error_shape cfg.metricsEnabled m e hh
        subst he
        simp [txn_consume, hkc, hh] at h
      | ok b =>
        simp [txn_consume, hkc, hh] at h
  · simp [txn_consume, hkc]

/-- C9 witness: the count-exhausted call raises `FinishedTransactionBatch`
and preserves every field listed. -/
theorem c9_failing_consume_preserves_state_witness :
    (txn_consume cfgCount5 stCount5 0 1 PollResult.noMessage).1.batchOffsetStarts =
        stCount5.batchOffsetStarts ∧
    (txn_consume cfgCount5 stCount5 0 1 PollResult.noMessage).1.batchOffsetEnds =
        stCount5.batchOffsetEnds ∧
    (txn_consume cfgCount5 stCount5 0 1 PollResult.noMessage).1.consumeMessageCount =
        stCount5.consumeMessageCount ∧
    (txn_consume cfgCount5 stCount5 0 1 PollResult.noMessage).1.messages =
        stCount5.messages ∧
    (txn_consume cfgCount5 stCount5 0 1 PollResult.noMessage).1.message =
        stCount5.message ∧
    (txn_consume cfgCount5 stCount5 0 1 PollResult.noMessage).1.metricsConsumed =
        stCount5.metricsConsumed :=
  c9_failing_consume_preserves_state cfgCount5 stCount5 0 1 PollResult.noMessage
    (Or.inl rfl)

/-- C7: message validation raises `ConsumeMessageError` exactly when the
headers are inaccessible and the broker-reported error string carries the
corrupt-message signature; an exception raised by the client poll itself is
propagated to the caller unchanged. -/
theorem c7_corruption_exactly (m : Message) (cfg : TxnConfig) (st : TxnState)
    (now mult : Nat) (e : String)
    (hcont :
      (keep_consuming cfg st.consumeMessageCount st.batchTimeElapseStart now mult).1 = true) :
    (handle_consumed_message_base cfg.metricsEnabled m =
        Except.error (ConsumerErr.consumeMessageError corruptMessageText) ↔
      (m.headersAccessible = false ∧ strContains (pyStr m.error) corruptSignature = true)) ∧
    (txn_consume cfg st now mult (PollResult.transportRaise e)).2 =
      Except.error (ConsumerErr.transportError e) := by
  constructor
  · constructor
    · intro h
      unfold handle_consumed_message_base at h
      by_cases h1 : m.headersAccessible
      · simp [h1] at h
      · by_cases h2 : strContains (pyStr m.error) corruptSignature
        · exact ⟨by simp [h1], h2⟩
        · simp [h1, h2] at h
    · rintro ⟨h1, h2⟩
      simp [handle_consumed_message_base, h1, h2]
  · simp [txn_consume, hcont]

/-- C7 witness: the corrupt fixture message is rejected with
`ConsumeMessageError`, and a raised client exception text comes back
unchanged. -/
theorem c7_corruption_exactly_witness :
    (handle_consumed_message_base cfgA.metricsEnabled msgCorrupt =
        Except.error (ConsumerErr.consumeMessageError corruptMessageText) ↔
      (msgCorrupt.headersAccessible = false ∧
        strContains (pyStr msgCorrupt.error) corruptSignature = true)) ∧
    (txn_consume cfgA initialTxnState 0 1
        (PollResult.transportRaise "broker gone")).2 =
      Except.error (ConsumerErr.transportError "broker gone") :=
  c7_corruption_exactly msgCorrupt cfgA initialTxnState 0 1 "broker gone" rfl

/-- C10: a corrupt message fetched during a transactional consume leaves
every piece of batch bookkeeping (start and end dicts, count, retained
list, metric counter) untouched, yet `self.message` has already been
replaced, so key, value and headers read the corrupt message. -/
theorem c10_corrupt_bookkeeping_untouched (cfg : TxnConfig) (st : TxnState)
    (now mult : Nat) (m : Message)
    (hcont :
      (keep_consuming cfg st.consumeMessageCount st.batchTimeElapseStart now mult).1 = true)
    (hheaders : m.headersAccessible = false)
    (hsig : strContains (pyStr m.error) corruptSignature = true) :
    (txn_consume cfg st now mult (PollResult.polledMessage m)).2 =
        Except.error (ConsumerErr.consumeMessageError corruptMessageText) ∧
    (txn_consume cfg st now mult (PollResult.polledMessage m)).1 =
      { st with
          batchTimeElapseStart :=
            (keep_consuming cfg st.consumeMessageCount st.batchTimeElapseStart now mult).2,
          message := some m } ∧
    consumer_key (txn_consume cfg st now mult (PollResult.polledMessage m)).1 =
        some m.key ∧
    consumer_value (txn_consume cfg st now mult (PollResult.polledMessage m)).1 =
        some m.value ∧
    consumer_headers (txn_consume cfg st now mult (PollResult.polledMessage m)).1 =
        some m.headers := by
  have hh : handle_consumed_message_base cfg.metricsEnabled m =
      Except.error (ConsumerErr.consumeMessageError corruptMessageText) := by
    simp [handle_consumed_message_base, hheaders, hsig]
  refine ⟨?_, ?_, ?_, ?_, ?_⟩ <;>
    simp [txn_consume, hcont, hh, consumer_key, consumer_value, consumer_headers]

/-- C10 witness: the corrupt fixture message against the no-bounds
configuration and an empty batch. -/
theorem c10_corrupt_bookkeeping_untouched_witness :
    (txn_consume cfgA initialTxnState 0 1 (PollResult.polledMessage msgCorrupt)).2 =
        Except.error (ConsumerErr.consumeMessageError corruptMessageText) ∧
    (txn_consume cfgA initialTxnState 0 1 (PollResult.polledMessage msgCorrupt)).1 =
      { initialTxnState with
          batchTimeElapseStart :=
            (keep_consuming cfgA initialTxnState.consumeMessageCount
              initialTxnState.batchTimeElapseStart 0 1).2,
          message := some msgCorrupt } ∧
    consumer_key (txn_consume cfgA initialTxnState 0 1
        (PollResult.polledMessage msgCorrupt)).1 = some msgCorrupt.key ∧
    consumer_value (txn_consume cfgA initialTxnState 0 1
        (PollResult.polledMessage msgCorrupt)).1 = some msgCorrupt.value ∧
    consumer_headers (txn_consume cfgA initialTxnState 0 1
        (PollResult.polledMessage msgCorrupt)).1 = some msgCorrupt.headers :=
  c10_corrupt_bookkeeping_untouched cfgA initialTxnState 0 1 msgCorrupt rfl rfl (by decide)

theorem commit_aux_nonempty (producer : Producer) (offsets : List (String × Nat × Nat))
    (gm : String) (hne : offsets ≠ []) :
    commit_aux producer offsets gm =
      ({ activeTransaction := false },
       (if producer.activeTransaction then [] else [ProducerAction.beginTransaction]) ++
         [ProducerAction.sendOffsetsToTransaction offsets gm,
          ProducerAction.commitTransaction 30]) := by
  by_cases hp : producer.activeTransaction <;> simp [commit_aux, hne, hp]

theorem commit_aux_empty_inactive (producer : Producer) (gm : String)
    (hp : producer.activeTransaction = false) :
    commit_aux producer [] gm = (producer, []) := by
  simp [commit_aux, hp]

/-- C1 (amended): a commit with a non-empty tracked set sends exactly one
offset per tracked (topic, partition), equal to the tracked end plus one,
to the producer transaction against the configured group metadata, opening
a transaction first when none is active (then committing it); afterwards
the offset dicts, count and retained messages are cleared, the held
message is dropped and `pending_commits` is false. The window start
timestamp is left unchanged by commit - `_init_attrs` never touches
`_batch_time_elapse_start` (the original claim said it becomes unset). -/
theorem c1_commit_sends_next_offsets (cfg : TxnConfig) (st : TxnState) (producer : Producer)
    (hWF : TopicMapWF st.batchOffsetEnds)
    (hne : offsets_to_commit st.batchOffsetEnds ≠ []) :
    (txn_commit cfg st producer).2.2 =
      (if producer.activeTransaction then [] else [ProducerAction.beginTransaction]) ++
        [ProducerAction.sendOffsetsToTransaction (offsets_to_commit st.batchOffsetEnds)
            cfg.consumerGroupMetadata,
          ProducerAction.commitTransaction 30] ∧
    (∀ t p o, lookup2 st.batchOffsetEnds t p = some o →
      (offsets_to_commit st.batchOffsetEnds).filter
          (fun x => decide (x.1 = t) && decide (x.2.1 = p)) = [(t, p, o + 1)]) ∧
    (∀ x ∈ offsets_to_commit st.batchOffsetEnds,
      ∃ o, lookup2 st.batchOffsetEnds x.1 x.2.1 = some o ∧ x.2.2 = o + 1) ∧
    (txn_commit cfg st producer).1.batchOffsetStarts = [] ∧
    (txn_commit cfg st producer).1.batchOffsetEnds = [] ∧
    (txn_commit cfg st producer).1.consumeMessageCount = 0 ∧
    (txn_commit cfg st producer).1.messages = [] ∧
    (txn_commit cfg st producer).1.message = none ∧
    pending_commits (txn_commit cfg st producer).1 = false ∧
    (txn_commit cfg st producer).1.batchTimeElapseStart = st.batchTimeElapseStart := by
  refine ⟨?_, ?_, ?_, rfl, rfl, rfl, rfl, rfl, ?_, rfl⟩
  · simp [txn_commit, commit_aux_nonempty producer _ cfg.consumerGroupMetadata hne]
  · intro t p o h
    exact offsets_filter st.batchOffsetEnds hWF t p o h
  · intro x hx
    exact mem_offsets_to_commit st.batchOffsetEnds hWF x hx
  · simp [pending_commits, txn_commit]

/-- C1 witness: committing the fixture batch with tracked end 41 for (T, 0)
against an inactive producer. -/
theorem c1_commit_sends_next_offsets_witness :
    (txn_commit cfgA stEnds41 { activeTransaction := false }).2.2 =
      (if ({ activeTransaction := false } : Producer).activeTransaction then []
        else [ProducerAction.beginTransaction]) ++
        [ProducerAction.sendOffsetsToTransaction (offsets_to_commit stEnds41.batchOffsetEnds)
            cfgA.consumerGroupMetadata,
          ProducerAction.commitTransaction 30] ∧
    (∀ t p o, lookup2 stEnds41.batchOffsetEnds t p = some o →
      (offsets_to_commit stEnds41.batchOffsetEnds).filter
          (fun x => decide (x.1 = t) && decide (x.2.1 = p)) = [(t, p, o + 1)]) ∧
    (∀ x ∈ offsets_to_commit stEnds41.batchOffsetEnds,
      ∃ o, lookup2 stEnds41.batchOffsetEnds x.1 x.2.1 = some o ∧ x.2.2 = o + 1) ∧
    (txn_commit cfgA stEnds41 { activeTransaction := false }).1.batchOffsetStarts = [] ∧
    (txn_commit cfgA stEnds41 { activeTransaction := false }).1.batchOffsetEnds = [] ∧
    (txn_commit cfgA stEnds41 { activeTransaction := false }).1.consumeMessageCount = 0 ∧
    (txn_commit cfgA stEnds41 { activeTransaction := false }).1.messages = [] ∧
    (txn_commit cfgA stEnds41 { activeTransaction := false }).1.message = none ∧
    pending_commits (txn_commit cfgA stEnds41 { activeTransaction := false }).1 = false ∧
    (txn_commit cfgA stEnds41 { activeTransaction := false }).1.batchTimeElapseStart =
      stEnds41.batchTimeElapseStart :=
  c1_commit_sends_next_offsets cfgA stEnds41 { activeTransaction := false }
    (by constructor <;> decide) (by decide)

/-- C1 counterexample: the original claim also asserts that after a
successful commit with a non-empty tracked set the window start timestamp
is unset; here a successful commit (tracked end 41, offsets sent) leaves
`_batch_time_elapse_start` at its stamped value 5. -/
theorem c1_counterexample_window_start_survives_commit :
    offsets_to_commit stEnds41.batchOffsetEnds ≠ [] ∧
    (txn_commit cfgA stEnds41 { activeTransaction := false }).1.batchTimeElapseStart =
      some 5 ∧
    (txn_commit cfgA stEnds41 { activeTransaction := false }).1.batchTimeElapseStart ≠
      none := by
  refine ⟨by decide, rfl, by decide⟩

theorem txn_commit_reset_again (cfg : TxnConfig) (st : TxnState) (producer : Producer)
    (hEnds : st.batchOffsetEnds = []) (hNoTxn : producer.activeTransaction = false)
    (hmsg : st.message = none) (hstarts : st.batchOffsetStarts = [])
    (hmsgs : st.messages = []) (hcount : st.consumeMessageCount = 0) :
    txn_commit cfg st producer = (st, producer, []) := by
  have hoff : offsets_to_commit st.batchOffsetEnds = [] := by
    rw [hEnds]
    rfl
  have hca := commit_aux_empty_inactive producer cfg.consumerGroupMetadata hNoTxn
  simp only [txn_commit, hoff, hca]
  cases st
  simp_all

/-- C8: commit with an empty offset dict against a producer with no active
transaction performs no producer interaction at all and still resets the
batch state; performing the commit again from the reset state changes
nothing further. -/
theorem c8_commit_empty_noop (cfg : TxnConfig) (st : TxnState) (producer : Producer)
    (hEmpty : st.batchOffsetEnds = []) (hNoTxn : producer.activeTransaction = false) :
    (txn_commit cfg st producer).2.2 = [] ∧
    (txn_commit cfg st producer).2.1 = producer ∧
    (txn_commit cfg st producer).1.message = none ∧
    (txn_commit cfg st producer).1.batchOffsetStarts = [] ∧
    (txn_commit cfg st producer).1.batchOffsetEnds = [] ∧
    (txn_commit cfg st producer).1.consumeMessageCount = 0 ∧
    (txn_commit cfg st producer).1.messages = [] ∧
    pending_commits (txn_commit cfg st producer).1 = false ∧
    txn_commit cfg (txn_commit cfg st producer).1 (txn_commit cfg st producer).2.1 =
      ((txn_commit cfg st producer).1, (txn_commit cfg st producer).2.1, []) := by
  have hoff : offsets_to_commit st.batchOffsetEnds = [] := by
    rw [hEmpty]
    rfl
  have hca := commit_aux_empty_inactive producer cfg.consumerGroupMetadata hNoTxn
  refine ⟨?_, ?_, rfl, rfl, rfl, rfl, rfl, ?_, ?_⟩
  · simp [txn_commit, hoff, hca]
  · simp [txn_commit, hoff, hca]
  · simp [pending_commits, txn_commit]
  · have h21 : (txn_commit cfg st producer).2.1 = producer := by
      simp [txn_commit, hoff, hca]
    rw [h21]
    exact txn_commit_reset_again cfg (txn_commit cfg st producer).1 producer rfl hNoTxn rfl
      rfl rfl rfl

/-- C8 witness: an already-reset engine state and an inactive producer. -/
theorem c8_commit_empty_noop_witness :
    (txn_commit cfgA initialTxnState { activeTransaction := false }).2.2 = [] ∧
    (txn_commit cfgA initialTxnState { activeTransaction := false }).2.1 =
      { activeTransaction := false } ∧
    (txn_commit cfgA initialTxnState { activeTransaction := false }).1.message = none ∧
    (txn_commit cfgA initialTxnState
        { activeTransaction := false }).1.batchOffsetStarts = [] ∧
    (txn_commit cfgA initialTxnState { activeTransaction := false }).1.batchOffsetEnds = [] ∧
    (txn_commit cfgA initialTxnState
        { activeTransaction := false }).1.consumeMessageCount = 0 ∧
    (txn_commit cfgA initialTxnState { activeTransaction := false }).1.messages = [] ∧
    pending_commits (txn_commit cfgA initialTxnState { activeTransaction := false }).1 =
      false ∧
    txn_commit cfgA (txn_commit cfgA initialTxnState { activeTransaction := false }).1
        (txn_commit cfgA initialTxnState { activeTransaction := false }).2.1 =
      ((txn_commit cfgA initialTxnState { activeTransaction := false }).1,
        (txn_commit cfgA initialTxnState { activeTransaction := false }).2.1, []) :=
  c8_commit_empty_noop cfgA initialTxnState { activeTransaction := false } rfl rfl

/-- C5: rollback issues a seek for exactly those tracked start offsets whose
partition is in the current assignment for its topic, repositioning to the
tracked start; tracked partitions outside the assignment are not sought;
afterwards the offset dicts, the consumed count and the retained messages
are cleared. -/
theorem c5_rollback_seeks_assigned (st : TxnState) (raw : List (String × Nat))
    (hWF : TopicMapWF st.batchOffsetStarts) :
    (∀ t p o, (t, p, o) ∈ (rollback_consumption st raw).2 ↔
        (lookup2 st.batchOffsetStarts t p = some o ∧ (t, p) ∈ raw)) ∧
    (rollback_consumption st raw).1.batchOffsetStarts = [] ∧
    (rollback_consumption st raw).1.batchOffsetEnds = [] ∧
    (rollback_consumption st raw).1.consumeMessageCount = 0 ∧
    (rollback_consumption st raw).1.messages = [] := by
  refine ⟨?_, rfl, rfl, rfl, rfl⟩
  intro t p o
  show (t, p, o) ∈
      (st.batchOffsetStarts.map (fun tp =>
        (tp.2.filter (fun po => decide (po.1 ∈
            (dictGet tp.1 (get_consumer_partition_assignment raw)).getD []))).map
          (fun po => (tp.1, po.1, po.2)))).flatten ↔ _
  constructor
  · intro hmem
    obtain ⟨l, hl, hal⟩ := List.mem_flatten.mp hmem
    obtain ⟨tp, htp, rfl⟩ := List.mem_map.mp hl
    obtain ⟨po, hpo, heq⟩ := List.mem_map.mp hal
    obtain ⟨hpo_mem, hpo_assign⟩ := List.mem_filter.mp hpo
    simp only [Prod.mk.injEq] at heq
    obtain ⟨h1, h2, h3⟩ := heq
    subst h1; subst h2; subst h3
    constructor
    · rw [lookup2_eq_getD,
        (dictGet_eq_some_iff_mem st.batchOffsetStarts hWF.1 tp.1 tp.2).mpr htp,
        Option.getD_some]
      exact (dictGet_eq_some_iff_mem tp.2 (hWF.2 tp htp) po.1 po.2).mpr hpo_mem
    · exact (mem_assignment raw tp.1 po.1).mp (of_decide_eq_true hpo_assign)
  · rintro ⟨hl, hmem⟩
    rw [lookup2_eq_getD] at hl
    cases hT : dictGet t st.batchOffsetStarts with
    | none => rw [hT] at hl; simp [dictGet] at hl
    | some pm =>
      rw [hT, Option.getD_some] at hl
      have htp_mem : (t, pm) ∈ st.batchOffsetStarts :=
        (dictGet_eq_some_iff_mem st.batchOffsetStarts hWF.1 t pm).mp hT
      have hpo_mem : (p, o) ∈ pm :=
        (dictGet_eq_some_iff_mem pm (hWF.2 (t, pm) htp_mem) p o).mp hl
      refine List.mem_flatten.mpr ⟨_, List.mem_map.mpr ⟨(t, pm), htp_mem, rfl⟩, ?_⟩
      refine List.mem_map.mpr ⟨(p, o), List.mem_filter.mpr ⟨hpo_mem, ?_⟩, rfl⟩
      exact decide_eq_true ((mem_assignment raw t p).mpr hmem)

/-- C5 witness: starts 10 for (T, 0) and 7 for (T, 1), with only (T, 0) in
the live assignment - only (T, 0) is sought, back to offset 10. -/
theorem c5_rollback_seeks_assigned_witness :
    ((∀ t p o, (t, p, o) ∈ (rollback_consumption stRoll [("T", 0), ("U", 3)]).2 ↔
        (lookup2 stRoll.batchOffsetStarts t p = some o ∧ (t, p) ∈ [("T", 0), ("U", 3)])) ∧
    (rollback_consumption stRoll [("T", 0), ("U", 3)]).1.batchOffsetStarts = [] ∧
    (rollback_consumption stRoll [("T", 0), ("U", 3)]).1.batchOffsetEnds = [] ∧
    (rollback_consumption stRoll [("T", 0), ("U", 3)]).1.consumeMessageCount = 0 ∧
    (rollback_consumption stRoll [("T", 0), ("U", 3)]).1.messages = []) ∧
    (rollback_consumption stRoll [("T", 0), ("U", 3)]).2 = [("T", 0, 10)] :=
  ⟨c5_rollback_seeks_assigned stRoll [("T", 0), ("U", 3)]
      (by constructor <;> decide), by decide⟩

/-- C4: over any batch of consumed messages delivered with per-partition
non-decreasing offsets, starting from an empty tracker: the tracked start
is the offset of the first message seen for that (topic, partition) and,
once some, never changes over any longer prefix of the batch; the tracked
end is the offset of the most recently consumed message for that
(topic, partition); end is at least start whenever both are tracked; and
the tracked end is non-decreasing along the batch. -/
theorem c4_offset_range_invariants (cfg : TxnConfig) (st : TxnState) (ms : List Message)
    (hmono : perPartitionMonotone ms)
    (hs : st.batchOffsetStarts = []) (he : st.batchOffsetEnds = [])
    (t : String) (p : Nat) :
    lookup2 (consume_batch cfg st ms).batchOffsetStarts t p = firstOffsetIn ms t p ∧
    lookup2 (consume_batch cfg st ms).batchOffsetEnds t p = lastOffsetIn ms t p ∧
    (∀ i j a, i ≤ j →
      lookup2 (consume_batch cfg st (ms.take i)).batchOffsetStarts t p = some a →
      lookup2 (consume_batch cfg st (ms.take j)).batchOffsetStarts t p = some a) ∧
    (∀ a b, lookup2 (consume_batch cfg st ms).batchOffsetStarts t p = some a →
      lookup2 (consume_batch cfg st ms).batchOffsetEnds t p = some b → a ≤ b) ∧
    (∀ i j b, i ≤ j →
      lookup2 (consume_batch cfg st (ms.take i)).batchOffsetEnds t p = some b →
      ∃ c, lookup2 (consume_batch cfg st (ms.take j)).batchOffsetEnds t p = some c ∧
        b ≤ c) := by
  have hstart : ∀ l, lookup2 (consume_batch cfg st l).batchOffsetStarts t p =
      firstOffsetIn l t p := by
    intro l
    rw [consume_batch_starts, hs]
    simp [lookup2, dictGet, optOr_none_left]
  have hend : ∀ l, lookup2 (consume_batch cfg st l).batchOffsetEnds t p =
      lastOffsetIn l t p := by
    intro l
    rw [consume_batch_ends, he]
    simp [lookup2, dictGet, optOr_none_right]
  refine ⟨hstart ms, hend ms, ?_, ?_, ?_⟩
  · intro i j a hij ha
    rw [hstart] at ha ⊢
    exact firstOffsetIn_take_eq ms t p i j hij a ha
  · intro a b ha hb
    rw [hstart] at ha
    rw [hend] at hb
    exact head?_le_getLast? _ (offsetsPairwise ms hmono t p) a b ha hb
  · intro i j b hij hb
    rw [hend] at hb
    obtain ⟨c, hc, hbc⟩ := lastOffsetIn_take_le ms hmono t p i j hij b hb
    rw [hend]
    exact ⟨c, hc, hbc⟩

/-- C4 witness: consuming fixture messages at offsets 10 and 11 of (T, 0)
from a fresh batch. -/
theorem c4_offset_range_invariants_witness :
    (lookup2 (consume_batch cfgA initialTxnState [msgA, msgB]).batchOffsetStarts "T" 0 =
        firstOffsetIn [msgA, msgB] "T" 0 ∧
      lookup2 (consume_batch cfgA initialTxnState [msgA, msgB]).batchOffsetEnds "T" 0 =
        lastOffsetIn [msgA, msgB] "T" 0 ∧
      (∀ i j a, i ≤ j →
        lookup2 (consume_batch cfgA initialTxnState
            ([msgA, msgB].take i)).batchOffsetStarts "T" 0 = some a →
        lookup2 (consume_batch cfgA initialTxnState
            ([msgA, msgB].take j)).batchOffsetStarts "T" 0 = some a) ∧
      (∀ a b,
        lookup2 (consume_batch cfgA initialTxnState [msgA, msgB]).batchOffsetStarts "T" 0 =
            some a →
        lookup2 (consume_batch cfgA initialTxnState [msgA, msgB]).batchOffsetEnds "T" 0 =
            some b → a ≤ b) ∧
      (∀ i j b, i ≤ j →
        lookup2 (consume_batch cfgA initialTxnState
            ([msgA, msgB].take i)).batchOffsetEnds "T" 0 = some b →
        ∃ c, lookup2 (consume_batch cfgA initialTxnState
            ([msgA, msgB].take j)).batchOffsetEnds "T" 0 = some c ∧ b ≤ c)) ∧
    lookup2 (consume_batch cfgA initialTxnState [msgA, msgB]).batchOffsetStarts "T" 0 =
      some 10 ∧
    lookup2 (consume_batch cfgA initialTxnState [msgA, msgB]).batchOffsetEnds "T" 0 =
      some 11 :=
  ⟨c4_offset_range_invariants cfgA initialTxnState [msgA, msgB]
      (by
        refine List.Pairwise.cons ?_ (List.Pairwise.cons ?_ List.Pairwise.nil)
        · intro b hb
          simp only [List.mem_singleton] at hb
          subst hb
          intro _ _
          decide
        · intro b hb
          simp at hb)
      rfl rfl "T" 0,
    by decide, by decide⟩
